import Mathlib

/-!
Verification development for the LLM reverse proxy.

This file gives a shallow embedding, in Lean 4, of the parts of the
TypeScript source that the specification's claims are about:

* the Google PaLM key provider (`src/shared/key-management/palm/provider.ts`),
* the user store (`src/shared/users/user-store.ts`),
* the quota gate (`src/proxy/middleware/request/apply-quota-limits.ts`),
* the SSE streaming pipeline (`src/proxy/middleware/response/handle-streamed-response.ts`),
* the error classifier and fake-SSE helpers (`common.ts`).

Conventions used throughout the embedding:

* JavaScript numbers holding millisecond timestamps are modelled as `Int`.
* JavaScript `undefined` for an optional property is modelled as `none`.
* Functions that can `throw` return `Option`/`Except`.
* JavaScript string operations are re-implemented over `List Char` by
  structural recursion (with explicit fuel where needed) so that every
  definition is kernel-computable and concrete runs can be settled by
  `decide`/`rfl`.
-/

/-! ## JavaScript string primitives

Helpers mirroring the JS string operations used by the source
(`String.prototype.startsWith`, `slice`, `split`, `trim`, `Array.join`).
All inputs in scope are ASCII, so one `Char` corresponds to one UTF-16
code unit and `List Char` lengths agree with JS string lengths. -/

/-- `listStartsWith p l` : `l` starts with `p` (JS `startsWith` on char lists). -/
def listStartsWith : List Char → List Char → Bool
  | [], _ => true
  | _ :: _, [] => false
  | p :: ps, c :: cs => p == c && listStartsWith ps cs

/-- JS `s.startsWith(p)`. -/
def jsStartsWith (s p : String) : Bool :=
  listStartsWith p.data s.data

/-- JS `s.slice(n)` for a nonnegative `n` (the only use in the source). -/
def jsSlice (s : String) (n : Nat) : String :=
  ⟨s.data.drop n⟩

/-- JS string concatenation (same as Lean's). -/
def jsConcat (a b : String) : String := a ++ b

/-- JS `arr.join("")`. -/
def jsJoin (l : List String) : String :=
  l.foldl (fun a b => a ++ b) ""

/-- One step of JS `split`: find the first occurrence of (non-empty)
separator `sep` in `cs`, returning the part before it and the remainder
after it. Fuel-structural so the kernel can evaluate it. -/
def jsSplitStep (sep : List Char) : Nat → List Char → Option (List Char × List Char)
  | 0, _ => none
  | _ + 1, [] => none
  | fuel + 1, c :: cs =>
    if listStartsWith sep (c :: cs) then
      some ([], (c :: cs).drop sep.length)
    else
      match jsSplitStep sep fuel cs with
      | some (pre, post) => some (c :: pre, post)
      | none => none

/-- JS `s.split(sep)` for a fixed non-empty separator: repeatedly take the
segment before the next separator occurrence. Always returns at least one
element, like in JS. -/
def jsSplitAux (sep : List Char) : Nat → List Char → List (List Char)
  | 0, cs => [cs]
  | fuel + 1, cs =>
    match jsSplitStep sep (cs.length + 1) cs with
    | some (pre, post) => pre :: jsSplitAux sep fuel post
    | none => [cs]

/-- JS `s.split(sep)` (non-empty separator, no regex). -/
def jsSplit (s sep : String) : List String :=
  (jsSplitAux sep.data (s.data.length + 1) s.data).map (fun cs => ⟨cs⟩)

/-- JS whitespace test for `trim` (ASCII subset; the streams only carry
spaces, `\n`, `\r`, `\t`). -/
def isJsSpace (c : Char) : Bool :=
  c == ' ' || c == '\n' || c == '\r' || c == '\t'

/-- JS `s.trim()`. -/
def jsTrim (s : String) : String :=
  ⟨(s.data.dropWhile isJsSpace).reverse.dropWhile isJsSpace |>.reverse⟩

/-! ## A kernel-computable stable sort

`Array.prototype.sort(comparator)` is required by the ECMAScript spec to be
stable; for a consistent comparator its result is the unique stable order.
We model it by a stable insertion sort: each element is inserted *after*
all already-placed elements that do not compare strictly greater, which
preserves the original relative order of elements the comparator ties. -/

/-- Insert `x` into `l`, keeping `x` after every element `y` with `le y x`. -/
def jsSortInsert (le : α → α → Bool) (x : α) : List α → List α
  | [] => [x]
  | y :: ys => if le y x then y :: jsSortInsert le x ys else x :: y :: ys

/-- Stable sort by the boolean relation `le` (`le a b` = "comparator
returns ≤ 0 on `(a, b)`"). -/
def jsStableSort (le : α → α → Bool) (l : List α) : List α :=
  l.foldl (fun acc x => jsSortInsert le x acc) []

/-! ## Google PaLM key provider

Embedding of `GooglePalmKeyProvider` from
`src/shared/key-management/palm/provider.ts`. A key record carries every
field the source initializes in the constructor; `service` and
`modelFamilies` are constants (`"google-palm"`, `["bison"]`) and are kept
as fields so that frame properties can talk about them. -/

/-- `RATE_LIMIT_LOCKOUT` (2,000 ms). -/
def RATE_LIMIT_LOCKOUT : Int := 2000

/-- `KEY_REUSE_DELAY` (500 ms). -/
def KEY_REUSE_DELAY : Int := 500

structure GooglePalmKey where
  key : String
  service : String
  modelFamilies : List String
  isTrial : Bool
  isDisabled : Bool
  promptCount : Nat
  lastUsed : Int
  rateLimitedAt : Int
  rateLimitedUntil : Int
  hash : String
  lastChecked : Int
  bisonTokens : Int
deriving DecidableEq

structure PalmProvider where
  keys : List GooglePalmKey
deriving DecidableEq

/-- The comparator passed to `availableKeys.sort(...)` in
`GooglePalmKeyProvider.get`. Returns the JS comparator's numeric result. -/
def palmKeyComparator (now : Int) (a b : GooglePalmKey) : Int :=
  let aRateLimited := decide (now - a.rateLimitedAt < RATE_LIMIT_LOCKOUT)
  let bRateLimited := decide (now - b.rateLimitedAt < RATE_LIMIT_LOCKOUT)
  if aRateLimited && !bRateLimited then 1
  else if !aRateLimited && bRateLimited then -1
  else if aRateLimited && bRateLimited then a.rateLimitedAt - b.rateLimitedAt
  else a.lastUsed - b.lastUsed

/-- `palmKeyLe now a b` : the comparator does not order `b` strictly
before `a` (comparator result ≤ 0). Sorting ascending by the comparator
is sorting by this relation. -/
def palmKeyLe (now : Int) (a b : GooglePalmKey) : Bool :=
  decide (palmKeyComparator now a b ≤ 0)

/-- `GooglePalmKeyProvider.get`. Filters out disabled keys (throwing —
here `none` — if none remain), stable-sorts the rest by the comparator,
takes the first key, sets `lastUsed`, `rateLimitedAt` and
`rateLimitedUntil` on it, and returns a copy of it. The pool entry is
updated in place; we model the aliasing by replacing the entry with the
matching `hash` (hashes are unique in the pool). -/
def palmGet (now : Int) (st : PalmProvider) : Option (GooglePalmKey × PalmProvider) :=
  let availableKeys := st.keys.filter (fun k => !k.isDisabled)
  if availableKeys.isEmpty then none
  else
    let keysByPriority := jsStableSort (palmKeyLe now) availableKeys
    match keysByPriority with
    | [] => none
    | selectedKey :: _ =>
      let updatedKey :=
        { selectedKey with
          lastUsed := now
          rateLimitedAt := now
          rateLimitedUntil := now + KEY_REUSE_DELAY }
      some (updatedKey,
        ⟨st.keys.map (fun k => if k.hash = selectedKey.hash then updatedKey else k)⟩)

/-- A key record with the given hash, rate-limit timestamp, last-used
timestamp and disabled flag; all remaining fields as the provider
constructor initializes them. -/
def testKey (h : String) (rlAt lu : Int) (dis : Bool) : GooglePalmKey :=
  { key := "secret"
    service := "google-palm"
    modelFamilies := ["bison"]
    isTrial := false
    isDisabled := dis
    promptCount := 0
    lastUsed := lu
    rateLimitedAt := rlAt
    rateLimitedUntil := 0
    hash := h
    lastChecked := 0
    bisonTokens := 0 }


/-- The selection order exactly as claim C2 words it: keys not currently
rate-limited precede rate-limited keys; among rate-limited keys the one
with the smaller `rateLimitedAt` precedes; ties are broken by the older
`lastUsed`. (Strict "precedes" relation, following the claim's words; the
code's comparator is `palmKeyComparator`.) -/
def claimedKeyLt (now : Int) (a b : GooglePalmKey) : Bool :=
  let aRateLimited := decide (now - a.rateLimitedAt < RATE_LIMIT_LOCKOUT)
  let bRateLimited := decide (now - b.rateLimitedAt < RATE_LIMIT_LOCKOUT)
  if !aRateLimited && bRateLimited then true
  else if aRateLimited && !bRateLimited then false
  else if aRateLimited && bRateLimited && a.rateLimitedAt ≠ b.rateLimitedAt then
    decide (a.rateLimitedAt < b.rateLimitedAt)
  else decide (a.lastUsed < b.lastUsed)


/-- The single-key pool used to witness `C6_palmGet_frame`. -/
def c6Key : GooglePalmKey := testKey "a" 0 0 false

def c6Snap : GooglePalmKey :=
  { c6Key with
    lastUsed := 10
    rateLimitedAt := 10
    rateLimitedUntil := 10 + KEY_REUSE_DELAY }

def c6St : PalmProvider := ⟨[c6Key]⟩

def c6St' : PalmProvider := ⟨[c6Snap]⟩




/-! ## User store

Embedding of `src/shared/users/user-store.ts`. Users are stored in a
`Map` keyed by token; we model it as an ordered association list (tokens
are unique). `usersToFlush` is a `Set` of tokens; we model it as a list
and only ever reason about membership. JS truthiness tests on optional
millisecond timestamps (`user.disabledAt`, `user.expiresAt`) treat both
`undefined` and `0` as false, which `truthyTime` mirrors. -/

inductive UserType where
  | normal
  | special
  | temporary
deriving DecidableEq

structure User where
  token : String
  ip : List String
  type : UserType
  promptCount : Nat
  tokenCounts : List (String × Int)
  tokenLimits : List (String × Int)
  createdAt : Int
  lastUsedAt : Option Int
  disabledAt : Option Int
  disabledReason : Option String
  expiresAt : Option Int
deriving DecidableEq

structure UserStore where
  users : List (String × User)
  usersToFlush : List String
deriving DecidableEq

/-- Lookup in a string-keyed dictionary (JS `Map.get` / object index):
the value of the first entry with the given key. -/
def dictGet (m : List (String × α)) (k : String) : Option α :=
  match m with
  | [] => none
  | p :: ps => if p.1 == k then some p.2 else dictGet ps k

/-- JS truthiness of an optional numeric property: `undefined` and `0`
are falsy. -/
def truthyTime : Option Int → Bool
  | none => false
  | some t => t != 0

/-- Replace the value stored under `token` (in-place mutation of the
object held by the `Map`). -/
def usersUpdate (users : List (String × User)) (token : String) (f : User → User) :
    List (String × User) :=
  users.map (fun p => if p.1 == token then (p.1, f p.2) else p)

/-- `disableUser` from `user-store.ts`: sets `disabledAt = now` and the
given reason on the user (no-op for unknown tokens) and schedules a
flush. -/
def disableUser (now : Int) (store : UserStore) (token : String)
    (reason : Option String) : UserStore :=
  match dictGet store.users token with
  | none => store
  | some _ =>
    { users := usersUpdate store.users token
        (fun u => { u with disabledAt := some now, disabledReason := reason })
      usersToFlush := store.usersToFlush ++ [token] }

/-- `authenticate` from `user-store.ts`. Returns the authenticated user
(or `none`) together with the updated store. `maxIpsPerUser = 0` models
an unset `MAX_IPS_PER_USER` (the JS code then uses an `Infinity` limit,
as it does for `special` users, so `overLimit` is never true). -/
def authenticate (now : Int) (maxIpsPerUser : Nat) (store : UserStore)
    (token ip : String) : Option User × UserStore :=
  match dictGet store.users token with
  | none => (none, store)
  | some user0 =>
    if truthyTime user0.disabledAt then (none, store)
    else
      let user := if user0.ip.contains ip then user0
                  else { user0 with ip := user0.ip ++ [ip] }
      let store1 : UserStore :=
        { store with users := usersUpdate store.users token (fun _ => user) }
      let overLimit :=
        if user.type = UserType.special || maxIpsPerUser = 0 then false
        else decide (user.ip.length > maxIpsPerUser)
      if overLimit then
        (none, disableUser now store1 token (some "IP address limit exceeded."))
      else
        let user1 := { user with lastUsedAt := some now }
        (some user1,
         { users := usersUpdate store1.users token (fun _ => user1)
           usersToFlush := store1.usersToFlush ++ [token] })

/-- `sub` occurs somewhere in the char list (JS `String.prototype.includes`). -/
def listHasInfix (sub : List Char) : List Char → Bool
  | [] => listStartsWith sub []
  | c :: cs => listStartsWith sub (c :: cs) || listHasInfix sub cs

/-- JS `s.includes(sub)`. -/
def jsIncludes (s sub : String) : Bool := listHasInfix sub.data s.data

/-- `getModelFamilyForQuotaUsage` from `user-store.ts` (model families as
their string tags). -/
def getModelFamilyForQuotaUsage (model : String) : String :=
  if jsIncludes model "32k" then "gpt4-32k"
  else if jsStartsWith model "gpt-4" then "gpt4"
  else if jsStartsWith model "gpt-3.5" then "turbo"
  else "claude"

/-- `hasAvailableQuota` from `user-store.ts`. The JS guard
`if (!tokenLimit) return true` is true when the limit entry is absent
(`undefined`) or `0`. -/
def hasAvailableQuota (store : UserStore) (token model : String)
    (requested : Int) : Bool :=
  match dictGet store.users token with
  | none => false
  | some user =>
    if user.type = UserType.special then true
    else
      let modelFamily := getModelFamilyForQuotaUsage model
      match dictGet user.tokenLimits modelFamily with
      | none => true
      | some tokenLimit =>
        if tokenLimit = 0 then true
        else
          let tokensConsumed := (dictGet user.tokenCounts modelFamily).getD 0 + requested
          decide (tokensConsumed < tokenLimit)

/-- `cleanupExpiredTokens`, per user: possibly disable an expired
temporary user, then decide deletion. Returns the (possibly updated)
user, whether the entry is deleted, and whether the token is added to
`usersToFlush` (by `disableUser` and/or by the deletion branch; the
flush container is a `Set`, so one membership flag suffices). -/
def cleanupUser (now : Int) (user : User) : User × Bool × Bool :=
  if user.type ≠ UserType.temporary then (user, false, false)
  else
    let disableNow := truthyTime user.expiresAt &&
      decide (user.expiresAt.getD 0 < now) && !truthyTime user.disabledAt
    let user1 :=
      if disableNow then
        { user with disabledAt := some now
                    disabledReason := some "Temporary token expired." }
      else user
    let deleted := truthyTime user1.disabledAt &&
      decide (user1.disabledAt.getD 0 + 24 * 60 * 60 * 1000 < now)
    (user1, deleted, disableNow || deleted)

/-- `cleanupExpiredTokens` from `user-store.ts` (the cron tick). -/
def cleanupExpiredTokens (now : Int) (store : UserStore) : UserStore :=
  let results := store.users.map (fun p => (p.1, cleanupUser now p.2))
  { users := (results.filter (fun r => !r.2.2.1)).map (fun r => (r.1, r.2.1))
    usersToFlush := store.usersToFlush
      ++ (results.filter (fun r => r.2.2.2)).map (fun r => r.1) }

/-! ## Quota gate

Embedding of `src/proxy/middleware/request/apply-quota-limits.ts` and
`isCompletionRequest` from `common.ts`. -/

/-- `isCompletionRequest` from `common.ts`. -/
def isCompletionRequest (method path : String) : Bool :=
  method == "POST" &&
    (["/v1/chat/completions", "/v1/completions", "/v1/complete"].any
      (fun endpoint => jsStartsWith path endpoint))

/-- The payload of a `QuotaExceededError` (`quotaInfo`). -/
structure QuotaInfo where
  quota : List (String × Int)
  used : List (String × Int)
  requested : Int
deriving DecidableEq

/-- `applyQuotaLimits`: no-op for non-completion requests or
unauthenticated requests; otherwise throws `QuotaExceededError` exactly
when `hasAvailableQuota` is false for
`(promptTokens ?? 0) + (outputTokens ?? 0)`. -/
def applyQuotaLimits (store : UserStore) (method path : String)
    (reqUser : Option User) (bodyModel : String)
    (promptTokens outputTokens : Option Int) : Except QuotaInfo Unit :=
  if !isCompletionRequest method path then .ok ()
  else
    match reqUser with
    | none => .ok ()
    | some user =>
      let requestedTokens := promptTokens.getD 0 + outputTokens.getD 0
      if !hasAvailableQuota store user.token bodyModel requestedTokens then
        .error { quota := user.tokenLimits
                 used := user.tokenCounts
                 requested := requestedTokens }
      else .ok ()


/-- A user record with every optional field absent and empty counters. -/
def baseUser (token : String) : User :=
  { token := token
    ip := []
    type := UserType.normal
    promptCount := 0
    tokenCounts := []
    tokenLimits := []
    createdAt := 0
    lastUsedAt := none
    disabledAt := none
    disabledReason := none
    expiresAt := none }

/-- Fixture for C5: a normal user with one known IP. -/
def c5User : User := { baseUser "t" with ip := ["1.1.1.1"] }

def c5Store : UserStore := ⟨[("t", c5User)], []⟩

/-- Fixture for C5's special-user conjunct: a special user with two IPs. -/
def c5Special : User :=
  { baseUser "s" with
    type := UserType.special
    ip := ["1.1.1.1", "2.2.2.2"] }

def c5SpecialStore : UserStore := ⟨[("s", c5Special)], []⟩

/-- Fixtures for C9: an expired-but-enabled temporary user, a temporary
user disabled more than 24 h ago, and a normal user. -/
def c9UserExpired : User :=
  { baseUser "e" with
    type := UserType.temporary
    expiresAt := some 1 }

def c9UserOld : User :=
  { baseUser "d" with
    type := UserType.temporary
    expiresAt := some 1
    disabledAt := some 1 }

def c9UserNormal : User := { baseUser "n" with expiresAt := some 1 }

def c9Store : UserStore :=
  ⟨[("e", c9UserExpired), ("d", c9UserOld), ("n", c9UserNormal)], []⟩

/-- Fixture for the C9 counterexample: a temporary user whose `expiresAt`
is the (falsy) timestamp `0`. -/
def c9ZeroUser : User :=
  { baseUser "z" with
    type := UserType.temporary
    expiresAt := some 0 }

def c9ZeroStore : UserStore := ⟨[("z", c9ZeroUser)], []⟩


/-! ## A small JSON model

`JSON.parse` / `JSON.stringify` as used by the streaming pipeline and the
error classifier. Values in scope are null, booleans, integers, strings
(ASCII with the escapes below), arrays and objects; object fields keep
insertion order, as JS does. All recursive functions take explicit fuel
so that they are kernel-computable; the fuel bounds used below exceed the
size of every value in scope. -/

inductive Json where
  | null
  | bool (b : Bool)
  | num (n : Int)
  | str (s : String)
  | arr (xs : List Json)
  | obj (fields : List (String × Json))

/-- The brace characters, named so that no brace literal appears in a
string. -/
def lbraceC : Char := Char.ofNat 123

def rbraceC : Char := Char.ofNat 125

def lbraceS : String := ⟨[lbraceC]⟩

def rbraceS : String := ⟨[rbraceC]⟩

/-- JSON string escaping (the characters that occur in scope). -/
def jsonEscapeChar (c : Char) : List Char :=
  if c == '"' then ['\\', '"']
  else if c == '\\' then ['\\', '\\']
  else if c == '\n' then ['\\', 'n']
  else if c == '\r' then ['\\', 'r']
  else if c == '\t' then ['\\', 't']
  else [c]

def jsonQuote (s : String) : String :=
  ⟨'"' :: (s.data.map jsonEscapeChar).flatten ++ ['"']⟩

def joinWith (sep : String) : List String → String
  | [] => ""
  | [s] => s
  | s :: rest => s ++ sep ++ joinWith sep rest

/-- `JSON.stringify` without spacing (fuel-indexed; fuel bounds nesting
depth). -/
def jsonStringifyF : Nat → Json → String
  | 0, _ => ""
  | _ + 1, .null => "null"
  | _ + 1, .bool true => "true"
  | _ + 1, .bool false => "false"
  | _ + 1, .num n => toString n
  | _ + 1, .str s => jsonQuote s
  | fuel + 1, .arr xs => "[" ++ joinWith "," (xs.map (jsonStringifyF fuel)) ++ "]"
  | fuel + 1, .obj fields =>
    lbraceS ++
      joinWith "," (fields.map (fun f => jsonQuote f.1 ++ ":" ++ jsonStringifyF fuel f.2)) ++
      rbraceS

/-- `JSON.stringify(x)`: no value in scope nests deeper than 64. -/
def jsonStringify (j : Json) : String := jsonStringifyF 64 j

def indentStr (n : Nat) : String := ⟨List.replicate n ' '⟩

/-- `JSON.stringify(x, null, 2)` (fuel-indexed pretty printer). -/
def jsonStringifyPrettyF : Nat → Nat → Json → String
  | 0, _, _ => ""
  | _ + 1, _, .null => "null"
  | _ + 1, _, .bool true => "true"
  | _ + 1, _, .bool false => "false"
  | _ + 1, _, .num n => toString n
  | _ + 1, _, .str s => jsonQuote s
  | _ + 1, _, .arr [] => "[]"
  | fuel + 1, ind, .arr xs =>
    "[\n" ++
      joinWith ",\n" (xs.map (fun x =>
        indentStr (ind + 2) ++ jsonStringifyPrettyF fuel (ind + 2) x)) ++
      "\n" ++ indentStr ind ++ "]"
  | _ + 1, _, .obj [] => lbraceS ++ rbraceS
  | fuel + 1, ind, .obj fields =>
    lbraceS ++ "\n" ++
      joinWith ",\n" (fields.map (fun f =>
        indentStr (ind + 2) ++ jsonQuote f.1 ++ ": " ++
          jsonStringifyPrettyF fuel (ind + 2) f.2)) ++
      "\n" ++ indentStr ind ++ rbraceS

def jsonStringifyPretty (j : Json) : String := jsonStringifyPrettyF 64 0 j

def skipWs : List Char → List Char
  | [] => []
  | c :: cs => if isJsSpace c then skipWs cs else c :: cs

/-- Parse the body of a JSON string literal (after the opening quote),
returning the decoded characters and the rest of the input. -/
def parseStringChars : Nat → List Char → List Char → Option (List Char × List Char)
  | 0, _, _ => none
  | fuel + 1, acc, cs =>
    match cs with
    | [] => none
    | c :: cs1 =>
      if c == '"' then some (acc.reverse, cs1)
      else if c == '\\' then
        match cs1 with
        | [] => none
        | e :: cs2 =>
          let dec : Option Char :=
            if e == '"' then some '"'
            else if e == '\\' then some '\\'
            else if e == '/' then some '/'
            else if e == 'n' then some '\n'
            else if e == 'r' then some '\r'
            else if e == 't' then some '\t'
            else none
          match dec with
          | some d => parseStringChars fuel (d :: acc) cs2
          | none => none
      else parseStringChars fuel (c :: acc) cs1

def takeDigits : List Char → List Char × List Char
  | [] => ([], [])
  | c :: cs =>
    if c.isDigit then
      let r := takeDigits cs
      (c :: r.1, r.2)
    else ([], c :: cs)

def digitsToNat (ds : List Char) : Nat :=
  ds.foldl (fun acc c => acc * 10 + (c.toNat - '0'.toNat)) 0

/-- Parse a JSON integer (the numbers in scope have no fraction or
exponent). -/
def parseNumber (cs : List Char) : Option (Int × List Char) :=
  match cs with
  | '-' :: rest =>
    let r := takeDigits rest
    if r.1.isEmpty then none else some (-(digitsToNat r.1 : Int), r.2)
  | _ =>
    let r := takeDigits cs
    if r.1.isEmpty then none else some ((digitsToNat r.1 : Int), r.2)

/-- Parser mode: a plain value, the remaining fields of an object, or the
remaining items of an array. -/
inductive JsonParseMode where
  | value
  | objFields (acc : List (String × Json))
  | arrItems (acc : List Json)

/-- Recursive-descent JSON parser (fuel-indexed). -/
def parseJsonF : Nat → JsonParseMode → List Char → Option (Json × List Char)
  | 0, _, _ => none
  | fuel + 1, .value, cs0 =>
    match skipWs cs0 with
    | [] => none
    | c :: rest =>
      if c == '"' then
        match parseStringChars (rest.length + 1) [] rest with
        | some (s, r) => some (.str ⟨s⟩, r)
        | none => none
      else if c == lbraceC then
        match skipWs rest with
        | d :: r2 => if d == rbraceC then some (.obj [], r2)
                     else parseJsonF fuel (.objFields []) rest
        | [] => none
      else if c == '[' then
        match skipWs rest with
        | d :: r2 => if d == ']' then some (.arr [], r2)
                     else parseJsonF fuel (.arrItems []) rest
        | [] => none
      else if c == 't' then
        if listStartsWith ['r', 'u', 'e'] rest then some (.bool true, rest.drop 3)
        else none
      else if c == 'f' then
        if listStartsWith ['a', 'l', 's', 'e'] rest then some (.bool false, rest.drop 4)
        else none
      else if c == 'n' then
        if listStartsWith ['u', 'l', 'l'] rest then some (.null, rest.drop 3)
        else none
      else
        match parseNumber (c :: rest) with
        | some (n, r) => some (.num n, r)
        | none => none
  | fuel + 1, .objFields acc, cs0 =>
    match skipWs cs0 with
    | [] => none
    | c :: rest =>
      if c == '"' then
        match parseStringChars (rest.length + 1) [] rest with
        | some (k, r1) =>
          match skipWs r1 with
          | ':' :: r2 =>
            match parseJsonF fuel .value r2 with
            | some (v, r3) =>
              match skipWs r3 with
              | ',' :: r4 => parseJsonF fuel (.objFields (acc ++ [(⟨k⟩, v)])) r4
              | d :: r4 =>
                if d == rbraceC then some (.obj (acc ++ [(⟨k⟩, v)]), r4) else none
              | [] => none
            | none => none
          | _ => none
        | none => none
      else none
  | fuel + 1, .arrItems acc, cs0 =>
    match parseJsonF fuel .value cs0 with
    | some (v, r1) =>
      match skipWs r1 with
      | ',' :: r2 => parseJsonF fuel (.arrItems (acc ++ [v])) r2
      | ']' :: r2 => some (.arr (acc ++ [v]), r2)
      | _ => none
    | none => none

/-- `JSON.parse` (throws — `none` — on malformed input or trailing
garbage). -/
def jsonParse (s : String) : Option Json :=
  match parseJsonF (4 * s.data.length + 8) .value s.data with
  | some (j, rest) => if (skipWs rest).isEmpty then some j else none
  | none => none

/-- JS property access `x.f`, where `none` at the outside models
`undefined`. Reading a property of `undefined`/`null` throws; property
access on other primitives yields `undefined` (no built-ins in scope). -/
def jsGetField : Option Json → String → Except Unit (Option Json)
  | none, _ => .error ()
  | some .null, _ => .error ()
  | some (.obj fs), k => .ok (dictGet fs k)
  | some _, _ => .ok none

/-- JS index access `x[i]` for a nonnegative index. -/
def jsIndex : Option Json → Nat → Except Unit (Option Json)
  | none, _ => .error ()
  | some .null, _ => .error ()
  | some (.arr xs), i => .ok (xs.get? i)
  | some _, _ => .ok none

/-- JS truthiness of a possibly-`undefined` value. -/
def jsTruthy : Option Json → Bool
  | none => false
  | some .null => false
  | some (.bool b) => b
  | some (.num n) => n != 0
  | some (.str s) => !s.data.isEmpty
  | some (.arr _) => true
  | some (.obj _) => true

/-- JS string coercion (`"" + v`), fuel-indexed for arrays. -/
def jsToStringF : Nat → Json → String
  | 0, _ => ""
  | _ + 1, .str s => s
  | _ + 1, .num n => toString n
  | _ + 1, .bool true => "true"
  | _ + 1, .bool false => "false"
  | _ + 1, .null => "null"
  | fuel + 1, .arr xs => joinWith "," (xs.map (jsToStringF fuel))
  | _ + 1, .obj _ => "[object Object]"

def jsToString (v : Json) : String := jsToStringF 64 v

/-- Set a field of a JS object: overwrite in place if present (keeping
its position), else append. -/
def objSetField (fs : List (String × Json)) (k : String) (v : Json) :
    List (String × Json) :=
  if (dictGet fs k).isSome then
    fs.map (fun p => if p.1 == k then (p.1, v) else p)
  else fs ++ [(k, v)]


/-! ## Requests, responses and the fake-SSE helpers

`ReqInfo` carries the request fields the handlers read.

Modelled from the spec: the assignment of `req.api` is missing from
`src/`; per the spec's routing table (inbound dialect per endpoint) and
the source comment "If these differ, the user is using the
OpenAI-compatible endpoint", it holds the client's (inbound) dialect, as
does `req.inboundApi` read by `buildFakeSseMessage`. `keyService` is
`req.key.service`, the upstream provider tag. -/

structure ReqInfo where
  id : String
  api : String
  inboundApi : String
  keyService : String
  bodyModel : Option Json
  debug : Option Json

/-- One observable action on the express `Response`. -/
inductive ResAction where
  | write (s : String)
  | endResponse
  | statusJson (code : Int) (body : Json)

structure ResState where
  headersSent : Bool
  contentTypeSse : Bool
  actions : List ResAction

/-- The fake SSE event object built by `buildFakeSseMessage` (common.ts):
the error text is placed in a fenced code block inside the content-like
field of the inbound dialect. A `model` field whose value is `undefined`
(absent request body) is omitted, as `JSON.stringify` would drop it.
Inbound `google-palm` throws, as does the `assertNever` default. -/
def fakeSseEventJson (now : Int) (type msg : String) (req : ReqInfo) :
    Except Unit Json :=
  let content := "```\n[" ++ type ++ ": " ++ msg ++ "]\n```\n"
  let modelFields : List (String × Json) :=
    match req.bodyModel with
    | some m => [("model", m)]
    | none => []
  if req.inboundApi = "openai" then
    .ok (.obj ([("id", .str ("chatcmpl-" ++ req.id)),
                ("object", .str "chat.completion.chunk"),
                ("created", .num now)] ++ modelFields ++
               [("choices", .arr [.obj [("delta", .obj [("content", .str content)]),
                                        ("index", .num 0),
                                        ("finish_reason", .str type)]])]))
  else if req.inboundApi = "openai-text" then
    .ok (.obj ([("id", .str ("cmpl-" ++ req.id)),
                ("object", .str "text_completion"),
                ("created", .num now),
                ("choices", .arr [.obj [("text", .str content),
                                        ("index", .num 0),
                                        ("logprobs", .null),
                                        ("finish_reason", .str type)]])] ++ modelFields))
  else if req.inboundApi = "anthropic" then
    .ok (.obj ([("completion", .str content),
                ("stop_reason", .str type),
                ("truncated", .bool false),
                ("stop", .null)] ++ modelFields ++
               [("log_id", .str ("proxy-req-" ++ req.id))]))
  else .error ()

/-- `buildFakeSseMessage` from `common.ts`: the serialized
`data: <json>\n\n` frame. -/
def buildFakeSseMessage (now : Int) (type msg : String) (req : ReqInfo) :
    Except Unit String :=
  (fakeSseEventJson now type msg req).map
    (fun ev => "data: " ++ jsonStringify ev ++ "\n\n")

/-- Modelled from the spec: `buildFakeSseMessage` from `src/proxy/queue.ts`
is imported by `handle-streamed-response.ts` but `queue.ts` is not under
`src/`. Per spec §4.4 a mid-stream error becomes a single SSE `data:`
frame carrying the fenced error text, and the caller serializes it with
`JSON.stringify`, so the queue's variant returns the fake event object
itself. -/
def queueBuildFakeSseMessage (now : Int) (type msg : String) (req : ReqInfo) :
    Except Unit Json :=
  fakeSseEventJson now type msg req

/-- Reads `payload.error.<k>` (for stating what the classifier emits). -/
def payloadErrorField (payload : Json) (k : String) : Option Json :=
  match payload with
  | .obj fs =>
    match dictGet fs "error" with
    | some (.obj efs) => dictGet efs k
    | _ => none
  | _ => none

/-- The content-carrying field of a fake SSE event, per inbound dialect
(`choices[0].delta.content` / `choices[0].text` / `completion`). -/
def fakeEventContent (inboundApi : String) (ev : Json) : Option Json :=
  match ev with
  | .obj fs =>
    if inboundApi = "openai" then
      match dictGet fs "choices" with
      | some (.arr (Json.obj c0 :: _)) =>
        match dictGet c0 "delta" with
        | some (.obj d) => dictGet d "content"
        | _ => none
      | _ => none
    else if inboundApi = "openai-text" then
      match dictGet fs "choices" with
      | some (.arr (Json.obj c0 :: _)) => dictGet c0 "text"
      | _ => none
    else if inboundApi = "anthropic" then dictGet fs "completion"
    else none
  | _ => none

/-- `writeErrorResponse` from `common.ts`. When headers are already sent
(or the response is an SSE stream), writes a fake SSE frame followed by
`data: [DONE]` and ends the response without touching the status;
otherwise sends `statusCode` with the JSON payload (attaching
`proxy_tokenizer_debug_info` when `req.debug` is set). -/
def writeErrorResponse (now : Int) (req : ReqInfo) (res : ResState)
    (statusCode : Int) (errorPayload : Json) : Except Unit ResState :=
  let errorSource :=
    match (match errorPayload with
           | .obj fs => dictGet fs "error"
           | _ => none) with
    | some (.obj efs) =>
      match dictGet efs "type" with
      | some (.str t) => if jsStartsWith t "proxy" then "proxy" else "upstream"
      | _ => "upstream"
    | _ => "upstream"
  if res.headersSent || res.contentTypeSse then
    let errorContent :=
      if statusCode = 403 then jsonStringify errorPayload
      else jsonStringifyPretty errorPayload
    match buildFakeSseMessage now (errorSource ++ " error (" ++ toString statusCode ++ ")")
        errorContent req with
    | .error e => .error e
    | .ok msg =>
      .ok { res with
            actions := res.actions ++
              [.write msg, .write "data: [DONE]\n\n", .endResponse] }
  else
    let payload1 :=
      match req.debug, errorPayload with
      | some d, .obj fs =>
        match dictGet fs "error" with
        | some (.obj efs) =>
          Json.obj (objSetField fs "error"
            (.obj (objSetField efs "proxy_tokenizer_debug_info" d)))
        | _ => errorPayload
      | _, _ => errorPayload
    .ok { res with actions := res.actions ++ [.statusJson statusCode payload1] }

/-- The errors `handleInternalError` distinguishes: a `ZodError`, an error
named `ForbiddenError`, a `QuotaExceededError`, or anything else. -/
inductive ProxyError where
  | zodError (issues : Json) (message stack : String)
  | forbiddenError (message : String)
  | quotaExceededError (message : String) (quotaInfo : Json) (stack : String)
  | otherError (message stack : String)

/-- `handleInternalError` from `common.ts`. -/
def handleInternalError (now : Int) (req : ReqInfo) (res : ResState)
    (err : ProxyError) : Except Unit ResState :=
  match err with
  | .zodError issues message stack =>
    writeErrorResponse now req res 400 (.obj [
      ("error", .obj [
        ("type", .str "proxy_validation_error"),
        ("proxy_note", .str "Reverse proxy couldn't validate your request when trying to transform it. Your client may be sending invalid data."),
        ("issues", issues),
        ("stack", .str stack),
        ("message", .str message)])])
  | .forbiddenError message =>
    writeErrorResponse now req res 403 (.obj [
      ("error", .obj [
        ("type", .str "organization_account_disabled"),
        ("code", .str "policy_violation"),
        ("param", .null),
        ("message", .str message)])])
  | .quotaExceededError _message qinfo stack =>
    writeErrorResponse now req res 429 (.obj [
      ("error", .obj [
        ("type", .str "proxy_quota_exceeded"),
        ("code", .str "quota_exceeded"),
        ("message", .str "You've exceeded your token quota for this model type."),
        ("info", qinfo),
        ("stack", .str stack)])])
  | .otherError message stack =>
    writeErrorResponse now req res 500 (.obj [
      ("error", .obj [
        ("type", .str "proxy_internal_error"),
        ("proxy_note", .str "Reverse proxy encountered an error before it could reach the upstream API."),
        ("message", .str message),
        ("stack", .str stack)])])

/-- The `quotaInfo` payload of a thrown `QuotaExceededError`, as JSON. -/
def quotaInfoToJson (q : QuotaInfo) : Json :=
  .obj [("quota", .obj (q.quota.map (fun p => (p.1, Json.num p.2)))),
        ("used", .obj (q.used.map (fun p => (p.1, Json.num p.2)))),
        ("requested", .num q.requested)]

/-! ## The SSE streaming pipeline

Embedding of `handleStreamedResponse` (the 200-status streaming branch),
`transformEvent` and `convertEventsToFinalResponse` from
`handle-streamed-response.ts`. -/

inductive TransformError where
  | notYetSupported
  | jsonError
  | typeError
deriving DecidableEq

/-- `transformEvent`. Identity when the dialects agree; throws for the
`openai → anthropic` pair; passes non-`data:` lines and `data: [DONE]`
through unchanged; otherwise parses the JSON payload, slices a truthy
`completion` from `lastPosition`, and re-serializes. Reading `.length`
of an absent (or non-string — none occur upstream) `completion` throws. -/
def transformEvent (data : String) (fromApi toApi : String) (lastPosition : Nat) :
    Except TransformError (Int × String) :=
  if fromApi = toApi then .ok (-1, data)
  else if fromApi = "openai" ∧ toApi = "anthropic" then .error .notYetSupported
  else if !(jsStartsWith data "data:") then .ok ((lastPosition : Int), data)
  else if jsStartsWith data "data: [DONE]" then .ok ((lastPosition : Int), data)
  else
    match jsonParse (jsSlice data 6) with
    | none => .error .jsonError
    | some event =>
      match event with
      | .obj fs =>
        match dictGet fs "completion" with
        | some (.str s) =>
          if s.data.isEmpty then
            .ok ((0 : Int), "data: " ++ jsonStringify (Json.obj fs) ++ "\n\n")
          else
            let sliced := jsSlice s lastPosition
            let fs1 := objSetField fs "completion" (.str sliced)
            .ok ((sliced.data.length : Int),
                 "data: " ++ jsonStringify (Json.obj fs1) ++ "\n\n")
        | _ => .error .typeError
      | _ => .error .typeError

/-- The accumulator state of the streaming handler, together with the
writes performed on the client response. -/
structure StreamState where
  fullChunks : List String
  chunkBuffer : List String
  messageBuffer : String
  lastPosition : Int
  actions : List ResAction

def initStreamState : StreamState :=
  { fullChunks := []
    chunkBuffer := []
    messageBuffer := ""
    lastPosition := 0
    actions := [] }

/-- The `full-sse-event` listener: transform the event — note the caller
passes `fullChunks.length`, the number of events so far, as
`lastPosition` — record it in `fullChunks`, store the returned position
in `lastPosition` (which nothing reads back), and forward it. -/
def onFullSseEvent (fromApi toApi : String) (st : StreamState) (data : String) :
    Except TransformError StreamState :=
  match transformEvent data fromApi toApi st.fullChunks.length with
  | .error e => .error e
  | .ok (position, event) =>
    .ok { st with
          fullChunks := st.fullChunks ++ [event]
          lastPosition := position
          actions := st.actions ++ [.write (event ++ "\n\n")] }

/-- The `data` listener: buffer the chunk, split on `\n\n`, keep the
trailing partial message, clear `chunkBuffer`, and emit each complete
message as a `full-sse-event`. -/
def onData (fromApi toApi : String) (st : StreamState) (chunk : String) :
    Except TransformError StreamState :=
  let str := chunk
  let chunkBuffer := st.chunkBuffer ++ [str]
  let newMessages := jsSplit (st.messageBuffer ++ jsJoin chunkBuffer) "\n\n"
  let st1 := { st with
               chunkBuffer := []
               messageBuffer := (newMessages.getLast?).getD "" }
  (newMessages.dropLast).foldlM (onFullSseEvent fromApi toApi) st1

/-- One accumulated choice of the final OpenAI chat response
(`message.role`, `message.content`, `finish_reason`, `index`). -/
structure OaiChoiceAcc where
  role : Option Json
  content : String
  finishReason : Option Json
  index : Nat

/-- The final OpenAI chat response object being reduced. -/
structure OaiFinalResponse where
  id : Option Json
  obj : Option Json
  created : Option Json
  model : Option Json
  choices : List OaiChoiceAcc

inductive FinalBody where
  | openaiBody (r : OaiFinalResponse)
  | anthropicBody (j : Json)

inductive ConvertError where
  | typeError
  | jsonError
  | unknownService
deriving DecidableEq

def getF (v : Option Json) (k : String) : Except ConvertError (Option Json) :=
  match jsGetField v k with
  | .ok r => .ok r
  | .error _ => .error .typeError

def idxF (v : Option Json) (i : Nat) : Except ConvertError (Option Json) :=
  match jsIndex v i with
  | .ok r => .ok r
  | .error _ => .error .typeError

/-- One step of the `events.reduce` in `convertEventsToFinalResponse`
(`i` is the index of `chunk` in the event list). -/
def oaiReduceStep (acc : OaiFinalResponse) (chunk : String) (i : Nat) :
    Except ConvertError OaiFinalResponse :=
  if !(jsStartsWith chunk "data: ") then .ok acc
  else if chunk = "data: [DONE]" then .ok acc
  else
    match jsonParse (jsSlice chunk 6) with
    | none => .error .jsonError
    | some data =>
      if i = 0 then do
        let idV ← getF (some data) "id"
        let objectV ← getF (some data) "object"
        let createdV ← getF (some data) "created"
        let modelV ← getF (some data) "model"
        let choicesV ← getF (some data) "choices"
        let c0 ← idxF choicesV 0
        let deltaV ← getF c0 "delta"
        let roleV ← getF deltaV "role"
        return { id := idV
                 obj := objectV
                 created := createdV
                 model := modelV
                 choices := [{ role := roleV
                               content := ""
                               finishReason := some .null
                               index := 0 }] }
      else do
        let choicesV ← getF (some data) "choices"
        let c0 ← idxF choicesV 0
        let deltaV ← getF c0 "delta"
        let contentV ← getF deltaV "content"
        match acc.choices with
        | [] => throw .typeError
        | ch :: rest => do
          let ch1 :=
            if jsTruthy contentV then
              { ch with content := ch.content ++ jsToString (contentV.getD .null) }
            else ch
          let finishV ← getF c0 "finish_reason"
          return { acc with choices := { ch1 with finishReason := finishV } :: rest }

def oaiReduceAux : OaiFinalResponse → Nat → List String →
    Except ConvertError OaiFinalResponse
  | acc, _, [] => .ok acc
  | acc, i, e :: es =>
    match oaiReduceStep acc e i with
    | .ok acc1 => oaiReduceAux acc1 (i + 1) es
    | .error err => .error err

/-- The initial `response` object of the reduce. -/
def oaiEmptyResponse : OaiFinalResponse :=
  { id := some (.str "")
    obj := some (.str "")
    created := some (.num 0)
    model := some (.str "")
    choices := [] }

/-- `convertEventsToFinalResponse`. For the `openai` service, joins the
chunk list, splits on `\n\n`, trims, and reduces the deltas into one
message. For `anthropic`, takes `chunks[chunks.length - 2]` — an
out-of-bounds (`undefined`) access when fewer than two chunks exist, so
`.toString()` throws — parses it and overwrites `log_id` with the request
id. Any other service throws. -/
def convertEventsToFinalResponse (chunks : List String) (req : ReqInfo) :
    Except ConvertError FinalBody :=
  if req.keyService = "openai" then
    let events := (jsSplit (jsJoin chunks) "\n\n").map jsTrim
    match oaiReduceAux oaiEmptyResponse 0 events with
    | .ok r => .ok (.openaiBody r)
    | .error e => .error e
  else if req.keyService = "anthropic" then
    if chunks.length < 2 then .error .typeError
    else
      match chunks.get? (chunks.length - 2) with
      | none => .error .typeError
      | some lastEvent =>
        match jsonParse (jsSlice lastEvent 6) with
        | none => .error .jsonError
        | some data =>
          let spread :=
            match data with
            | .obj fs => objSetField fs "log_id" (.str req.id)
            | _ => [("log_id", Json.str req.id)]
          .ok (.anthropicBody (.obj spread))
  else .error .unknownService

/-- How the upstream stream terminates: a clean `end`, or an `error`
event with a message. -/
inductive StreamEnd where
  | normal
  | errored (message : String)

/-- The outcome of the streaming handler's promise. -/
inductive StreamResult where
  | resolved (finalBody : FinalBody) (st : StreamState)
  | rejected (message : String) (st : StreamState)
  | listenerThrew (e : TransformError)
  | endThrew (e : ConvertError) (st : StreamState)
  | errorHandlerThrew (st : StreamState)

/-- The streaming branch of `handleStreamedResponse` (status 200,
`isStreaming`, headers handling elided): feed the upstream `data` chunks
through the listeners, then run the `end` or `error` handler. On `end`
the final body is built from `chunkBuffer` and the response is ended; on
`error` a fake SSE frame and `data: [DONE]` are written before ending. -/
def runStream (req : ReqInfo) (now : Int) (rawChunks : List String)
    (ending : StreamEnd) : StreamResult :=
  let fromApi := req.api
  let toApi := req.keyService
  match rawChunks.foldlM (onData fromApi toApi) initStreamState with
  | .error e => .listenerThrew e
  | .ok st =>
    match ending with
    | .normal =>
      match convertEventsToFinalResponse st.chunkBuffer req with
      | .ok finalBody =>
        .resolved finalBody { st with actions := st.actions ++ [.endResponse] }
      | .error e => .endThrew e st
    | .errored message =>
      match queueBuildFakeSseMessage now "mid-stream-error" message req with
      | .error _ => .errorHandlerThrew st
      | .ok fakeErrorEvent =>
        .rejected message
          { st with
            actions := st.actions ++
              [.write ("data: " ++ jsonStringify fakeErrorEvent ++ "\n\n"),
               .write "data: [DONE]\n\n", .endResponse] }


/-! ### Concrete fixtures for the streaming and error-handling claims -/

/-- The C1 scenario: client speaks OpenAI chat, upstream key is Anthropic
(`req.api` is the inbound dialect — see `ReqInfo`). -/
def c1Req : ReqInfo :=
  { id := "r1", api := "openai", inboundApi := "openai",
    keyService := "anthropic", bodyModel := none, debug := none }

/-- Three Anthropic SSE events carrying the completions "He", "Hello",
"Hello world", then the DONE sentinel, each arriving as one chunk. -/
def c1Chunks : List String :=
  ["data: \x7b\"completion\":\"He\"\x7d\n\n",
   "data: \x7b\"completion\":\"Hello\"\x7d\n\n",
   "data: \x7b\"completion\":\"Hello world\"\x7d\n\n",
   "data: [DONE]\n\n"]

/-- An OpenAI-to-OpenAI streaming request. -/
def c4Req : ReqInfo :=
  { id := "r4", api := "openai", inboundApi := "openai",
    keyService := "openai", bodyModel := none, debug := none }

def c4Msg0 : String := "data: \x7b\"id\":\"a\",\"object\":\"chat.completion.chunk\",\"created\":1,\"model\":\"m\",\"choices\":[\x7b\"delta\":\x7b\"role\":\"assistant\"\x7d,\"index\":0,\"finish_reason\":null\x7d]\x7d"

def c4Msg1 : String := "data: \x7b\"choices\":[\x7b\"delta\":\x7b\"content\":\"Hel\"\x7d,\"index\":0,\"finish_reason\":null\x7d]\x7d"

def c4Msg2 : String := "data: \x7b\"choices\":[\x7b\"delta\":\x7b\"content\":\"lo\"\x7d,\"index\":0,\"finish_reason\":\"stop\"\x7d]\x7d"

/-- A complete OpenAI chat SSE stream whose deltas concatenate to
"Hello" with `finish_reason` "stop". -/
def c4Raw : String :=
  c4Msg0 ++ "\n\n" ++ c4Msg1 ++ "\n\n" ++ c4Msg2 ++ "\n\n" ++ "data: [DONE]\n\n"

/-- An Anthropic-to-Anthropic streaming request. -/
def c10Req : ReqInfo :=
  { id := "ra", api := "anthropic", inboundApi := "anthropic",
    keyService := "anthropic", bodyModel := none, debug := none }

/-- A complete Anthropic SSE stream (final event, then DONE). -/
def c4AnthRaw : String := "data: \x7b\"completion\":\"Hi\"\x7d\n\ndata: [DONE]\n\n"

/-- A response on which nothing has been sent yet. -/
def freshRes : ResState :=
  { headersSent := false, contentTypeSse := false, actions := [] }

/-- Fixture for C3: a normal user 5 tokens under their turbo limit. -/
def c3User : User :=
  { baseUser "q" with
    tokenCounts := [("turbo", 95)]
    tokenLimits := [("turbo", 100)] }

def c3Store : UserStore := ⟨[("q", c3User)], []⟩

/-- The comparator negates under swapping its arguments. -/
theorem palmKeyComparator_swap (now : Int) (a b : GooglePalmKey) :
    palmKeyComparator now b a = -palmKeyComparator now a b := by
  unfold palmKeyComparator
  by_cases ha : now - a.rateLimitedAt < RATE_LIMIT_LOCKOUT <;>
    by_cases hb : now - b.rateLimitedAt < RATE_LIMIT_LOCKOUT <;>
      · simp [ha, hb]
        try omega

theorem palmKeyComparator_refl (now : Int) (a : GooglePalmKey) :
    palmKeyComparator now a a = 0 := by
  unfold palmKeyComparator
  by_cases ha : now - a.rateLimitedAt < RATE_LIMIT_LOCKOUT <;> simp [ha]

theorem palmKeyComparator_trans (now : Int) (a b c : GooglePalmKey)
    (hab : palmKeyComparator now a b ≤ 0) (hbc : palmKeyComparator now b c ≤ 0) :
    palmKeyComparator now a c ≤ 0 := by
  unfold palmKeyComparator at *
  by_cases ha : now - a.rateLimitedAt < RATE_LIMIT_LOCKOUT <;>
    by_cases hb : now - b.rateLimitedAt < RATE_LIMIT_LOCKOUT <;>
      by_cases hc : now - c.rateLimitedAt < RATE_LIMIT_LOCKOUT <;>
        simp [ha, hb, hc] at * <;> omega


theorem mem_jsSortInsert (le : α → α → Bool) (x : α) (l : List α) (a : α) :
    a ∈ jsSortInsert le x l ↔ a = x ∨ a ∈ l := by
  induction l with
  | nil => simp [jsSortInsert]
  | cons y ys ih =>
    cases hle : le y x with
    | true =>
      simp only [jsSortInsert, hle, if_true, List.mem_cons, ih]
      tauto
    | false =>
      simp [jsSortInsert, hle]

theorem pairwise_jsSortInsert (le : α → α → Bool)
    (total : ∀ a b, le a b = true ∨ le b a = true)
    (trans : ∀ a b c, le a b = true → le b c = true → le a c = true)
    (x : α) (l : List α) (h : l.Pairwise (fun a b => le a b = true)) :
    (jsSortInsert le x l).Pairwise (fun a b => le a b = true) := by
  induction l with
  | nil => simp [jsSortInsert]
  | cons y ys ih =>
    rcases h with _ | ⟨hy, hys⟩
    cases hle : le y x with
    | true =>
      simp only [jsSortInsert, hle, if_true]
      refine List.Pairwise.cons ?_ (ih hys)
      intro b hb
      rcases (mem_jsSortInsert le x ys b).mp hb with rfl | hb
      · exact hle
      · exact hy b hb
    | false =>
      have hxy : le x y = true := by
        rcases total x y with h | h
        · exact h
        · rw [hle] at h; exact absurd h (by simp)
      have hstep : jsSortInsert le x (y :: ys) = x :: y :: ys := by
        simp [jsSortInsert, hle]
      rw [hstep]
      refine List.Pairwise.cons ?_ (List.Pairwise.cons hy hys)
      intro b hb
      rcases List.mem_cons.mp hb with rfl | hb
      · exact hxy
      · exact trans x y b hxy (hy b hb)

theorem mem_jsStableSort_aux (le : α → α → Bool) (l acc : List α) (a : α) :
    a ∈ l.foldl (fun acc x => jsSortInsert le x acc) acc ↔ a ∈ acc ∨ a ∈ l := by
  induction l generalizing acc with
  | nil => simp
  | cons y ys ih =>
    simp only [List.foldl_cons, ih, mem_jsSortInsert, List.mem_cons]
    tauto

theorem mem_jsStableSort (le : α → α → Bool) (l : List α) (a : α) :
    a ∈ jsStableSort le l ↔ a ∈ l := by
  simp [jsStableSort, mem_jsStableSort_aux]

theorem pairwise_jsStableSort_aux (le : α → α → Bool)
    (total : ∀ a b, le a b = true ∨ le b a = true)
    (trans : ∀ a b c, le a b = true → le b c = true → le a c = true)
    (l acc : List α) (hacc : acc.Pairwise (fun a b => le a b = true)) :
    (l.foldl (fun acc x => jsSortInsert le x acc) acc).Pairwise
      (fun a b => le a b = true) := by
  induction l generalizing acc with
  | nil => exact hacc
  | cons y ys ih =>
    exact ih _ (pairwise_jsSortInsert le total trans y acc hacc)

theorem pairwise_jsStableSort (le : α → α → Bool)
    (total : ∀ a b, le a b = true ∨ le b a = true)
    (trans : ∀ a b c, le a b = true → le b c = true → le a c = true)
    (l : List α) :
    (jsStableSort le l).Pairwise (fun a b => le a b = true) :=
  pairwise_jsStableSort_aux le total trans l [] (by simp)

/-- The head of the stable sort is minimal: it satisfies `le` against
every element of the input list. -/
theorem head_jsStableSort_min (le : α → α → Bool)
    (total : ∀ a b, le a b = true ∨ le b a = true)
    (trans : ∀ a b c, le a b = true → le b c = true → le a c = true)
    (rfl' : ∀ a, le a a = true)
    (l : List α) (h : α) (t : List α) (heq : jsStableSort le l = h :: t) :
    ∀ a ∈ l, le h a = true := by
  intro a ha
  have hmem : a ∈ jsStableSort le l := (mem_jsStableSort le l a).mpr ha
  rw [heq] at hmem
  rcases List.mem_cons.mp hmem with rfl | hmem
  · exact rfl' a
  · have hp := pairwise_jsStableSort le total trans l
    rw [heq] at hp
    rcases hp with _ | ⟨hhead, _⟩
    exact hhead a hmem

theorem palmKeyLe_total (now : Int) (a b : GooglePalmKey) :
    palmKeyLe now a b = true ∨ palmKeyLe now b a = true := by
  simp only [palmKeyLe, decide_eq_true_eq]
  rcases le_or_lt (palmKeyComparator now a b) 0 with h | h
  · exact Or.inl h
  · right
    rw [palmKeyComparator_swap]
    omega

theorem palmKeyLe_trans (now : Int) (a b c : GooglePalmKey)
    (hab : palmKeyLe now a b = true) (hbc : palmKeyLe now b c = true) :
    palmKeyLe now a c = true := by
  simp only [palmKeyLe, decide_eq_true_eq] at *
  exact palmKeyComparator_trans now a b c hab hbc

theorem palmKeyLe_refl (now : Int) (a : GooglePalmKey) :
    palmKeyLe now a a = true := by
  simp [palmKeyLe, palmKeyComparator_refl]

/-- C2 (amended): whenever at least one enabled key exists, `get` returns a
copy of an enabled key that is minimal under the comparator's preorder
(non-rate-limited before rate-limited; among rate-limited, smaller
`rateLimitedAt` first; among non-rate-limited, older `lastUsed` first; no
further tie-break), with the post-selection field updates applied to the
returned copy; a disabled key is never selected. `get` fails (throws) if
and only if no enabled key exists. -/
theorem C2_palmGet_selection (now : Int) (st : PalmProvider) :
    (palmGet now st = none ↔ st.keys.filter (fun k => !k.isDisabled) = []) ∧
    (st.keys.filter (fun k => !k.isDisabled) ≠ [] →
      ∃ k ∈ st.keys, k.isDisabled = false ∧
        (∀ k' ∈ st.keys, k'.isDisabled = false → palmKeyComparator now k k' ≤ 0) ∧
        ∃ st', palmGet now st =
          some ({ k with
                  lastUsed := now
                  rateLimitedAt := now
                  rateLimitedUntil := now + KEY_REUSE_DELAY }, st')) := by
  cases havl : st.keys.filter (fun k => !k.isDisabled) with
  | nil =>
    constructor
    · simp [palmGet, havl]
    · intro h
      exact absurd rfl h
  | cons a as =>
    have hsortne : jsStableSort (palmKeyLe now) (a :: as) ≠ [] := by
      intro h0
      have hmem := (mem_jsStableSort (palmKeyLe now) (a :: as) a).mpr (by simp)
      rw [h0] at hmem
      simp at hmem
    cases hsort : jsStableSort (palmKeyLe now) (a :: as) with
    | nil => exact absurd hsort hsortne
    | cons h t =>
      have hget : palmGet now st =
          some ({ h with
                  lastUsed := now
                  rateLimitedAt := now
                  rateLimitedUntil := now + KEY_REUSE_DELAY },
                ⟨st.keys.map (fun k => if k.hash = h.hash then
                  { h with
                    lastUsed := now
                    rateLimitedAt := now
                    rateLimitedUntil := now + KEY_REUSE_DELAY } else k)⟩) := by
        simp only [palmGet, havl, List.isEmpty_cons, hsort]
        rfl
      have hhmem : h ∈ st.keys.filter (fun k => !k.isDisabled) := by
        rw [havl]
        have : h ∈ jsStableSort (palmKeyLe now) (a :: as) := by
          rw [hsort]; simp
        exact (mem_jsStableSort (palmKeyLe now) (a :: as) h).mp this
      have hkeys : h ∈ st.keys := (List.mem_filter.mp hhmem).1
      have hdis : h.isDisabled = false := by
        have := (List.mem_filter.mp hhmem).2
        simpa using this
      constructor
      · rw [hget]
        constructor
        · intro hc
          exact absurd hc (by simp)
        · intro hc
          exact absurd hc (by simp)
      · intro _
        refine ⟨h, hkeys, hdis, ?_, ⟨_, hget⟩⟩
        intro k' hk' hk'dis
        have hk'avl : k' ∈ (a :: as : List GooglePalmKey) := by
          rw [← havl]
          exact List.mem_filter.mpr ⟨hk', by simp [hk'dis]⟩
        have := head_jsStableSort_min (palmKeyLe now)
          (palmKeyLe_total now) (palmKeyLe_trans now) (palmKeyLe_refl now)
          (a :: as) h t hsort k' hk'avl
        simpa [palmKeyLe, decide_eq_true_eq] using this

theorem C2_palmGet_selection_witness :
    (palmGet 7 ⟨[testKey "w1" 0 3 false, testKey "w2" 0 1 false]⟩ = none ↔
      (⟨[testKey "w1" 0 3 false, testKey "w2" 0 1 false]⟩ : PalmProvider).keys.filter
        (fun k => !k.isDisabled) = []) ∧
    (∃ k ∈ (⟨[testKey "w1" 0 3 false, testKey "w2" 0 1 false]⟩ : PalmProvider).keys,
      k.isDisabled = false ∧
      (∀ k' ∈ (⟨[testKey "w1" 0 3 false, testKey "w2" 0 1 false]⟩ : PalmProvider).keys,
        k'.isDisabled = false → palmKeyComparator 7 k k' ≤ 0) ∧
      ∃ st', palmGet 7 ⟨[testKey "w1" 0 3 false, testKey "w2" 0 1 false]⟩ =
        some ({ k with
                lastUsed := 7
                rateLimitedAt := 7
                rateLimitedUntil := 7 + KEY_REUSE_DELAY }, st')) :=
  ⟨(C2_palmGet_selection 7 ⟨[testKey "w1" 0 3 false, testKey "w2" 0 1 false]⟩).1,
   (C2_palmGet_selection 7 ⟨[testKey "w1" 0 3 false, testKey "w2" 0 1 false]⟩).2
     (by decide)⟩

/-- C2 counterexample: with two enabled keys both rate-limited at the same
instant (`rateLimitedAt = 9`, `now = 10`) but different `lastUsed`
(5 vs 1), `get` returns the first-listed key `"k1"` even though `"k2"`
strictly precedes it in the claimed order (older `lastUsed` tie-break), so
the selected key is not minimal under the order as the claim states it. -/
theorem C2_tiebreak_counterexample :
    (palmGet 10 ⟨[testKey "k1" 9 5 false, testKey "k2" 9 1 false]⟩).map
      (fun p => p.1.hash) = some "k1" ∧
    claimedKeyLt 10 (testKey "k2" 9 1 false) (testKey "k1" 9 5 false) = true ∧
    (testKey "k2" 9 1 false) ∈
      (⟨[testKey "k1" 9 5 false, testKey "k2" 9 1 false]⟩ : PalmProvider).keys ∧
    (testKey "k2" 9 1 false).isDisabled = false ∧
    (testKey "k2" 9 1 false).hash ≠ "k1" := by
  decide

/-- C6 (amended): when `get` selects a key, exactly three fields of the
selected key change — `lastUsed := now`, `rateLimitedAt := now` and
`rateLimitedUntil := now + KEY_REUSE_DELAY` — every other field of the
selected key is preserved, and every pool entry with a different hash is
completely unchanged. -/
theorem C6_palmGet_frame (now : Int) (st : PalmProvider) (snap : GooglePalmKey)
    (st' : PalmProvider) (hget : palmGet now st = some (snap, st')) :
    ∃ k ∈ st.keys,
      snap.lastUsed = now ∧ snap.rateLimitedAt = now ∧
      snap.rateLimitedUntil = now + KEY_REUSE_DELAY ∧
      snap.key = k.key ∧ snap.service = k.service ∧
      snap.modelFamilies = k.modelFamilies ∧ snap.isTrial = k.isTrial ∧
      snap.isDisabled = k.isDisabled ∧ snap.promptCount = k.promptCount ∧
      snap.hash = k.hash ∧ snap.lastChecked = k.lastChecked ∧
      snap.bisonTokens = k.bisonTokens ∧
      st'.keys = st.keys.map (fun x => if x.hash = k.hash then snap else x) ∧
      (∀ x ∈ st.keys, x.hash ≠ k.hash → x ∈ st'.keys) := by
  cases havl : st.keys.filter (fun k => !k.isDisabled) with
  | nil =>
    rw [palmGet] at hget
    simp [havl] at hget
  | cons a as =>
    cases hsort : jsStableSort (palmKeyLe now) (a :: as) with
    | nil =>
      have hmem := (mem_jsStableSort (palmKeyLe now) (a :: as) a).mpr (by simp)
      rw [hsort] at hmem
      simp at hmem
    | cons h t =>
      have hget2 : palmGet now st =
          some ({ h with
                  lastUsed := now
                  rateLimitedAt := now
                  rateLimitedUntil := now + KEY_REUSE_DELAY },
                ⟨st.keys.map (fun x => if x.hash = h.hash then
                  { h with
                    lastUsed := now
                    rateLimitedAt := now
                    rateLimitedUntil := now + KEY_REUSE_DELAY } else x)⟩) := by
        simp only [palmGet, havl, List.isEmpty_cons, hsort]
        rfl
      rw [hget2] at hget
      simp only [Option.some.injEq, Prod.mk.injEq] at hget
      obtain ⟨hsnap, hst'⟩ := hget
      subst hsnap
      subst hst'
      have hhmem : h ∈ st.keys := by
        have : h ∈ jsStableSort (palmKeyLe now) (a :: as) := by
          rw [hsort]; simp
        have hf := (mem_jsStableSort (palmKeyLe now) (a :: as) h).mp this
        rw [← havl] at hf
        exact (List.mem_filter.mp hf).1
      refine ⟨h, hhmem, ?_⟩
      refine ⟨rfl, rfl, rfl, rfl, rfl, rfl, rfl, rfl, rfl, rfl, rfl, rfl, rfl, ?_⟩
      intro x hx hneq
      refine List.mem_map.mpr ⟨x, hx, ?_⟩
      simp [hneq]

theorem C6_palmGet_frame_witness :
    ∃ k ∈ c6St.keys,
      c6Snap.lastUsed = 10 ∧ c6Snap.rateLimitedAt = 10 ∧
      c6Snap.rateLimitedUntil = 10 + KEY_REUSE_DELAY ∧
      c6Snap.key = k.key ∧ c6Snap.service = k.service ∧
      c6Snap.modelFamilies = k.modelFamilies ∧ c6Snap.isTrial = k.isTrial ∧
      c6Snap.isDisabled = k.isDisabled ∧ c6Snap.promptCount = k.promptCount ∧
      c6Snap.hash = k.hash ∧ c6Snap.lastChecked = k.lastChecked ∧
      c6Snap.bisonTokens = k.bisonTokens ∧
      c6St'.keys = c6St.keys.map (fun x => if x.hash = k.hash then c6Snap else x) ∧
      (∀ x ∈ c6St.keys, x.hash ≠ k.hash → x ∈ c6St'.keys) :=
  C6_palmGet_frame 10 c6St c6Snap c6St' (by decide)

/-- C6 counterexample: for a single-key pool whose key has
`rateLimitedAt = 0`, calling `get` at `now = 10` also changes the key's
`rateLimitedAt` (to 10) — both in the returned copy and in the pool —
contradicting the claim that only `lastUsed` and `rateLimitedUntil`
change. -/
theorem C6_rateLimitedAt_counterexample :
    (testKey "a" 0 0 false).rateLimitedAt = 0 ∧
    (palmGet 10 ⟨[testKey "a" 0 0 false]⟩).map
      (fun p => (p.1.rateLimitedAt, p.2.keys.map (fun k => k.rateLimitedAt))) =
      some (10, [10]) := by
  decide


/-! ### User-store lemmas -/

theorem dictGet_usersUpdate_self (users : List (String × User)) (token : String)
    (f : User → User) :
    dictGet (usersUpdate users token f) token = (dictGet users token).map f := by
  induction users with
  | nil => rfl
  | cons p ps ih =>
    by_cases hpt : p.1 = token
    · have hb : (p.1 == token) = true := by simp [hpt]
      simp [usersUpdate, dictGet, hb]
    · have hb : (p.1 == token) = false := by simp [hpt]
      simp only [usersUpdate, List.map_cons, hb, Bool.false_eq_true, if_false, dictGet] at *
      exact ih

theorem dictGet_eq_none_of_not_mem_keys (l : List (String × α)) (token : String)
    (h : token ∉ l.map (fun p => p.1)) :
    dictGet l token = none := by
  induction l with
  | nil => rfl
  | cons p ps ih =>
    simp only [List.map_cons, List.mem_cons] at h
    push_neg at h
    have hb : (p.1 == token) = false := by
      simp
      exact fun hc => h.1 hc.symm
    simp only [dictGet, hb, Bool.false_eq_true, if_false]
    exact ih h.2

theorem mem_of_dictGet_eq_some (l : List (String × α)) (k : String) (v : α)
    (h : dictGet l k = some v) : (k, v) ∈ l := by
  induction l with
  | nil => simp [dictGet] at h
  | cons p ps ih =>
    cases hb : (p.1 == k) with
    | true =>
      simp only [dictGet, hb, if_true, Option.some.injEq] at h
      have hpk : p.1 = k := by simpa using hb
      have hkv : (k, v) = p := by rw [← hpk, ← h]
      exact hkv ▸ List.mem_cons_self _ _
    | false =>
      simp only [dictGet, hb, Bool.false_eq_true, if_false] at h
      exact List.mem_cons.mpr (Or.inr (ih h))

theorem dictGet_cleanup_aux (now : Int) (users : List (String × User)) (token : String)
    (hnodup : (users.map (fun p => p.1)).Nodup) :
    dictGet (((users.map (fun p => (p.1, cleanupUser now p.2))).filter
        (fun r => !r.2.2.1)).map (fun r => (r.1, r.2.1))) token =
      (dictGet users token).bind (fun u =>
        if (cleanupUser now u).2.1 then none else some (cleanupUser now u).1) := by
  induction users with
  | nil => rfl
  | cons p ps ih =>
    simp only [List.map_cons, List.nodup_cons] at hnodup
    obtain ⟨hnotin, hnd⟩ := hnodup
    by_cases hpt : p.1 = token
    · subst hpt
      have hb : (p.1 == p.1) = true := by simp
      cases hdel : (cleanupUser now p.2).2.1 with
      | true =>
        have hkeys : p.1 ∉ (((ps.map (fun q => (q.1, cleanupUser now q.2))).filter
            (fun r => !r.2.2.1)).map (fun r => (r.1, r.2.1))).map (fun q => q.1) := by
          intro hc
          apply hnotin
          simp only [List.mem_map] at hc
          obtain ⟨r, hr, hre⟩ := hc
          obtain ⟨r', hr', hre'⟩ := hr
          have hr'm := List.mem_of_mem_filter hr'
          simp only [List.mem_map] at hr'm
          obtain ⟨q, hq, hqe⟩ := hr'm
          refine List.mem_map.mpr ⟨q, hq, ?_⟩
          rw [← hre, ← hre', ← hqe]
        have hnone := dictGet_eq_none_of_not_mem_keys _ _ hkeys
        simp [List.filter_cons, hdel, dictGet, hb, hnone]
      | false =>
        have hfil : (!(cleanupUser now p.2).2.1) = true := by simp [hdel]
        simp [List.filter_cons, hfil, dictGet, hb, hdel]
    · have hb : (p.1 == token) = false := by
        rw [beq_eq_false_iff_ne]
        exact hpt
      have hstep : dictGet ((((p :: ps).map (fun q => (q.1, cleanupUser now q.2))).filter
            (fun r => !r.2.2.1)).map (fun r => (r.1, r.2.1))) token =
          dictGet (((ps.map (fun q => (q.1, cleanupUser now q.2))).filter
            (fun r => !r.2.2.1)).map (fun r => (r.1, r.2.1))) token := by
        cases hdel : (!(cleanupUser now p.2).2.1) with
        | true => simp [List.filter_cons, hdel, dictGet, hb]
        | false => simp [List.filter_cons, hdel]
      rw [hstep, ih hnd]
      have hskip : dictGet (p :: ps) token = dictGet ps token := by
        simp [dictGet, hb]
      rw [hskip]

theorem dictGet_cleanupExpiredTokens (now : Int) (store : UserStore) (token : String)
    (hnodup : (store.users.map (fun p => p.1)).Nodup) :
    dictGet (cleanupExpiredTokens now store).users token =
      (dictGet store.users token).bind (fun u =>
        if (cleanupUser now u).2.1 then none else some (cleanupUser now u).1) := by
  simpa [cleanupExpiredTokens] using dictGet_cleanup_aux now store.users token hnodup

theorem flush_cleanupExpiredTokens (now : Int) (store : UserStore) (token : String)
    (u : User) (hfind : dictGet store.users token = some u)
    (hflag : (cleanupUser now u).2.2 = true) :
    token ∈ (cleanupExpiredTokens now store).usersToFlush := by
  have hm := mem_of_dictGet_eq_some store.users token u hfind
  simp only [cleanupExpiredTokens]
  refine List.mem_append.mpr (Or.inr ?_)
  refine List.mem_map.mpr ⟨(token, cleanupUser now u), ?_, rfl⟩
  refine List.mem_filter.mpr ⟨?_, ?_⟩
  · exact List.mem_map.mpr ⟨(token, u), hm, rfl⟩
  · simpa using hflag

/-- C9 (amended): on a cron tick, every temporary user with a *nonzero*
`expiresAt` in the past (a zero timestamp is falsy in JS and skipped) who
is not yet disabled gets `disabledAt := now` (with reason "Temporary
token expired."); every temporary user whose *nonzero* `disabledAt` is
more than 24 h in the past is removed from the store and scheduled for
flush; users of other types are never touched by the tick. -/
theorem C9_cleanup_tick (now : Int) (store : UserStore)
    (hnodup : (store.users.map (fun p => p.1)).Nodup) :
    (∀ token u, dictGet store.users token = some u →
      u.type = UserType.temporary → truthyTime u.expiresAt = true →
      u.expiresAt.getD 0 < now → truthyTime u.disabledAt = false →
      dictGet (cleanupExpiredTokens now store).users token =
        some { u with disabledAt := some now
                      disabledReason := some "Temporary token expired." }) ∧
    (∀ token u, dictGet store.users token = some u →
      u.type = UserType.temporary → truthyTime u.disabledAt = true →
      u.disabledAt.getD 0 + 24 * 60 * 60 * 1000 < now →
      dictGet (cleanupExpiredTokens now store).users token = none ∧
      token ∈ (cleanupExpiredTokens now store).usersToFlush) ∧
    (∀ token u, dictGet store.users token = some u →
      u.type ≠ UserType.temporary →
      dictGet (cleanupExpiredTokens now store).users token = some u) := by
  refine ⟨?_, ?_, ?_⟩
  · intro token u hfind htemp hexp hpast hdis
    rw [dictGet_cleanupExpiredTokens now store token hnodup, hfind]
    have hd1 : decide (u.expiresAt.getD 0 < now) = true := decide_eq_true hpast
    have hd2 : decide (now + 24 * 60 * 60 * 1000 < now) = false :=
      decide_eq_false (by omega)
    simp only [cleanupUser, htemp, hexp, hdis, hd1, hd2, Option.some_bind]
    simp [hpast]
  · intro token u hfind htemp hdisT hold
    have hflag : (cleanupUser now u).2.2 = true := by
      simp [cleanupUser, htemp, hdisT]
      omega
    constructor
    · rw [dictGet_cleanupExpiredTokens now store token hnodup, hfind]
      simp [cleanupUser, htemp, hdisT]
      omega
    · exact flush_cleanupExpiredTokens now store token u hfind hflag
  · intro token u hfind htemp
    rw [dictGet_cleanupExpiredTokens now store token hnodup, hfind]
    simp [cleanupUser, htemp]

theorem C9_cleanup_tick_witness :
    dictGet (cleanupExpiredTokens 100000000 c9Store).users "e" =
      some { c9UserExpired with
             disabledAt := some 100000000
             disabledReason := some "Temporary token expired." } ∧
    (dictGet (cleanupExpiredTokens 100000000 c9Store).users "d" = none ∧
      "d" ∈ (cleanupExpiredTokens 100000000 c9Store).usersToFlush) ∧
    dictGet (cleanupExpiredTokens 100000000 c9Store).users "n" = some c9UserNormal :=
  ⟨(C9_cleanup_tick 100000000 c9Store (by decide)).1 "e" c9UserExpired
      (by decide) (by decide) (by decide) (by decide) (by decide),
   (C9_cleanup_tick 100000000 c9Store (by decide)).2.1 "d" c9UserOld
      (by decide) (by decide) (by decide) (by decide),
   (C9_cleanup_tick 100000000 c9Store (by decide)).2.2 "n" c9UserNormal
      (by decide) (by decide)⟩

/-- C9 counterexample: a temporary user with `expiresAt = 0` — a time in
the past at `now = 5` — is *not* disabled by the tick, because the JS
guard `user.expiresAt && ...` treats the timestamp `0` as absent. The
claim as stated requires this user to get `disabledAt` set. -/
theorem C9_zero_expiry_counterexample :
    ((0 : Int) < 5) ∧
    c9ZeroUser.type = UserType.temporary ∧
    c9ZeroUser.expiresAt = some 0 ∧
    c9ZeroUser.disabledAt = none ∧
    dictGet (cleanupExpiredTokens 5 c9ZeroStore).users "z" = some c9ZeroUser := by
  decide

/-- C5 (amended): with a positive cap `MAX_IPS_PER_USER = N`, a
non-special, non-disabled user presenting an (N+1)-th distinct IP is
disabled with `disabledReason = "IP address limit exceeded."` (with a
trailing period) and `authenticate` returns no user; `special` users are
never disabled by the IP limit. -/
theorem C5_ip_cap (now : Int) (maxIps : Nat) (store : UserStore) (token ip : String)
    (user : User)
    (hfound : dictGet store.users token = some user)
    (hdis : truthyTime user.disabledAt = false)
    (hspec : user.type ≠ UserType.special)
    (hpos : 0 < maxIps)
    (hnew : user.ip.contains ip = false)
    (hcount : user.ip.length = maxIps) :
    (authenticate now maxIps store token ip).1 = none ∧
    dictGet (authenticate now maxIps store token ip).2.users token =
      some { user with
             ip := user.ip ++ [ip]
             disabledAt := some now
             disabledReason := some "IP address limit exceeded." } ∧
    (∀ (store2 : UserStore) (token2 ip2 : String) (u2 : User),
      dictGet store2.users token2 = some u2 →
      truthyTime u2.disabledAt = false →
      u2.type = UserType.special →
      ∃ u', (authenticate now maxIps store2 token2 ip2).1 = some u' ∧
        u'.disabledAt = u2.disabledAt) := by
  have hmaxb : maxIps ≠ 0 := by omega
  have hnew' : ip ∉ user.ip := by simpa using hnew
  have hlt : maxIps < user.ip.length + 1 := by omega
  refine ⟨?_, ?_, ?_⟩
  · simp [authenticate, hfound, hdis, hnew', hspec, hmaxb, hlt]
  · simp [authenticate, hfound, hdis, hnew', hspec, hmaxb, hlt, disableUser,
      dictGet_usersUpdate_self]
  · intro store2 token2 ip2 u2 hfound2 hdis2 hspec2
    by_cases hc : ip2 ∈ u2.ip
    · refine ⟨{ u2 with lastUsedAt := some now }, ?_, rfl⟩
      simp [authenticate, hfound2, hdis2, hc, hspec2]
    · refine ⟨{ u2 with ip := u2.ip ++ [ip2], lastUsedAt := some now }, ?_, rfl⟩
      simp [authenticate, hfound2, hdis2, hc, hspec2]

theorem C5_ip_cap_witness :
    (authenticate 50 1 c5Store "t" "2.2.2.2").1 = none ∧
    dictGet (authenticate 50 1 c5Store "t" "2.2.2.2").2.users "t" =
      some { c5User with
             ip := c5User.ip ++ ["2.2.2.2"]
             disabledAt := some 50
             disabledReason := some "IP address limit exceeded." } ∧
    (∃ u', (authenticate 50 1 c5SpecialStore "s" "3.3.3.3").1 = some u' ∧
      u'.disabledAt = c5Special.disabledAt) :=
  have h := C5_ip_cap 50 1 c5Store "t" "2.2.2.2" c5User
    (by decide) (by decide) (by decide) (by decide) (by decide) (by decide)
  ⟨h.1, h.2.1, h.2.2 c5SpecialStore "s" "3.3.3.3" c5Special
    (by decide) (by decide) (by decide)⟩

/-- C5 counterexample: the reason string written by the code carries a
trailing period — `"IP address limit exceeded."` — whereas the claim
requires it to be exactly `"IP address limit exceeded"`. -/
theorem C5_reason_period_counterexample :
    (dictGet (authenticate 50 1 c5Store "t" "2.2.2.2").2.users "t").map
      (fun u => u.disabledReason) = some (some "IP address limit exceeded.") ∧
    "IP address limit exceeded." ≠ "IP address limit exceeded" := by
  decide

/-! ### Streaming-pipeline lemmas and claims -/

theorem onFullSseEvent_chunkBuffer (fromApi toApi : String) (st : StreamState)
    (d : String) (st' : StreamState)
    (h : onFullSseEvent fromApi toApi st d = .ok st') :
    st'.chunkBuffer = st.chunkBuffer := by
  unfold onFullSseEvent at h
  cases ht : transformEvent d fromApi toApi st.fullChunks.length with
  | error e =>
    rw [ht] at h
    exact Except.noConfusion h
  | ok p =>
    rw [ht] at h
    obtain ⟨pos, ev⟩ := p
    simp only [Except.ok.injEq] at h
    rw [← h]

theorem foldFullSse_chunkBuffer (fromApi toApi : String) (msgs : List String)
    (st st' : StreamState)
    (h : msgs.foldlM (onFullSseEvent fromApi toApi) st = .ok st') :
    st'.chunkBuffer = st.chunkBuffer := by
  induction msgs generalizing st with
  | nil =>
    have h2 : st = st' := Except.ok.inj h
    rw [h2]
  | cons m ms ih =>
    rw [List.foldlM_cons] at h
    cases hs : onFullSseEvent fromApi toApi st m with
    | error e =>
      rw [hs] at h
      exact Except.noConfusion h
    | ok st1 =>
      rw [hs] at h
      have h2 : ms.foldlM (onFullSseEvent fromApi toApi) st1 = .ok st' := h
      rw [ih st1 h2, onFullSseEvent_chunkBuffer fromApi toApi st m st1 hs]

theorem onData_chunkBuffer (fromApi toApi : String) (st : StreamState)
    (c : String) (st' : StreamState)
    (h : onData fromApi toApi st c = .ok st') :
    st'.chunkBuffer = [] := by
  unfold onData at h
  have h2 := foldFullSse_chunkBuffer fromApi toApi _ _ _ h
  simpa using h2

theorem foldData_chunkBuffer (fromApi toApi : String) (chunks : List String)
    (st0 st : StreamState) (h0 : st0.chunkBuffer = [])
    (h : chunks.foldlM (onData fromApi toApi) st0 = .ok st) :
    st.chunkBuffer = [] := by
  induction chunks generalizing st0 with
  | nil =>
    have h2 : st0 = st := Except.ok.inj h
    rw [← h2]
    exact h0
  | cons c cs ih =>
    rw [List.foldlM_cons] at h
    cases hs : onData fromApi toApi st0 c with
    | error e =>
      rw [hs] at h
      exact Except.noConfusion h
    | ok st1 =>
      rw [hs] at h
      exact ih st1 (onData_chunkBuffer fromApi toApi st0 c st1 hs) h

set_option maxRecDepth 80000 in
/-- C1: in the claim's scenario (client speaks OpenAI, upstream key is
Anthropic, upstream completions "He", "Hello", "Hello world"),
`transformEvent` throws "OpenAI -> Anthropic streaming not yet supported."
on the first event, so the client receives no deltas at all. Moreover,
even on the code path that does reach the completion-slicing logic
(any dialect pair other than the identity and the guarded one — shown
here with the arguments swapped), the caller passes `fullChunks.length`
(the event count) instead of the threaded character position, so the
emitted deltas are "He", "ello", "llo world", whose concatenation is not
the final completion "Hello world". -/
theorem C1_translation_bug :
    runStream c1Req 0 c1Chunks StreamEnd.normal =
      StreamResult.listenerThrew TransformError.notYetSupported ∧
    (c1Chunks.foldlM (onData "anthropic" "openai") initStreamState).map
        (fun st => st.fullChunks) =
      Except.ok
        ["data: \x7b\"completion\":\"He\"\x7d\n\n",
         "data: \x7b\"completion\":\"ello\"\x7d\n\n",
         "data: \x7b\"completion\":\"llo world\"\x7d\n\n",
         "data: [DONE]"] ∧
    "He" ++ "ello" ++ "llo world" ≠ "Hello world" :=
  ⟨rfl, rfl, by decide⟩

set_option maxRecDepth 80000 in
/-- C4: the final response is built from `chunkBuffer`, which is cleared
by every `data` listener invocation and is therefore always empty when
the stream ends (first conjunct, over every input). Consequently a
complete OpenAI chat stream whose deltas spell "Hello" resolves with the
*empty* initial response object, although replaying the accumulated raw
stream text through `convertEventsToFinalResponse` yields the merged
message (third conjunct); an Anthropic stream makes the `end` handler
throw on `chunks[-2]` instead of producing a final response. -/
theorem C4_final_body_bug :
    (∀ (fromApi toApi : String) (chunks : List String) (st : StreamState),
      chunks.foldlM (onData fromApi toApi) initStreamState = .ok st →
      st.chunkBuffer = []) ∧
    (∃ st, runStream c4Req 0 [c4Raw] StreamEnd.normal =
      .resolved (.openaiBody oaiEmptyResponse) st) ∧
    convertEventsToFinalResponse [c4Raw] c4Req =
      .ok (.openaiBody
        { id := some (.str "a")
          obj := some (.str "chat.completion.chunk")
          created := some (.num 1)
          model := some (.str "m")
          choices := [{ role := some (.str "assistant")
                        content := "Hello"
                        finishReason := some (.str "stop")
                        index := 0 }] }) ∧
    (∃ st, runStream c10Req 0 [c4AnthRaw] StreamEnd.normal =
      .endThrew .typeError st) := by
  refine ⟨?_, ⟨_, rfl⟩, rfl, ⟨_, rfl⟩⟩
  intro fromApi toApi chunks st h
  exact foldData_chunkBuffer fromApi toApi chunks initStreamState st rfl h

theorem C4_final_body_bug_witness : initStreamState.chunkBuffer = [] :=
  C4_final_body_bug.1 "openai" "openai" [] initStreamState rfl

/-- C10: for the Anthropic service, `convertEventsToFinalResponse` reads
`chunks[chunks.length - 2]`; with fewer than two chunks that access is
out of bounds (`undefined`) and the subsequent `.toString()` throws, so
no final response object is produced. -/
theorem C10_final_response_underflow (chunks : List String) (req : ReqInfo)
    (hserv : req.keyService = "anthropic") (hlen : chunks.length < 2) :
    convertEventsToFinalResponse chunks req = .error .typeError := by
  rw [convertEventsToFinalResponse, hserv]
  rw [if_neg (by decide), if_pos rfl, if_pos hlen]

theorem C10_final_response_underflow_witness :
    convertEventsToFinalResponse [] c10Req = .error .typeError :=
  C10_final_response_underflow [] c10Req rfl (by decide)

/-- C7 (amended): an error in an SSE stream after headers are out always
produces a fake SSE `data:` frame in the inbound dialect — the error text
in a fenced code block inside the dialect's content-carrying field —
followed by `data: [DONE]` and a blank line, before the response is
ended, and appends no status-setting action (the already-sent status is
untouched). This holds both for the stream's `error` listener and for
`writeErrorResponse` once headers are sent. A *normal* upstream end,
however, writes no `[DONE]` of its own (see the counterexample): the
terminator reaches the client only if the upstream sent one as an event. -/
theorem C7_error_termination (req : ReqInfo) (now : Int) (rawChunks : List String)
    (message : String) (st : StreamState)
    (hfold : rawChunks.foldlM (onData req.api req.keyService) initStreamState = .ok st)
    (hsup : req.inboundApi = "openai" ∨ req.inboundApi = "openai-text" ∨
      req.inboundApi = "anthropic") :
    (∃ ev, fakeSseEventJson now "mid-stream-error" message req = .ok ev ∧
      runStream req now rawChunks (StreamEnd.errored message) =
        .rejected message
          { st with actions := st.actions ++
              [.write ("data: " ++ jsonStringify ev ++ "\n\n"),
               .write "data: [DONE]\n\n", .endResponse] } ∧
      fakeEventContent req.inboundApi ev =
        some (.str ("```\n[mid-stream-error: " ++ message ++ "]\n```\n"))) ∧
    (∀ (res : ResState) (statusCode : Int) (payload : Json),
      res.headersSent = true →
      ∃ m, writeErrorResponse now req res statusCode payload =
        .ok { res with actions := res.actions ++
          [.write m, .write "data: [DONE]\n\n", .endResponse] }) := by
  obtain ⟨rid, rapi, rin, rks, rbm, rdbg⟩ := req
  constructor
  · rcases hsup with h | h | h <;> subst h <;> cases rbm <;>
      exact ⟨_, rfl, by rw [runStream]; rw [hfold]; rfl, rfl⟩
  · intro res statusCode payload hh
    obtain ⟨hsent, ct, acts⟩ := res
    have hh2 : hsent = true := hh
    subst hh2
    rcases hsup with h | h | h <;> subst h <;> cases rbm <;> exact ⟨_, rfl⟩

theorem C7_error_termination_witness :
    ∃ ev, fakeSseEventJson 0 "mid-stream-error" "boom" c4Req = .ok ev ∧
      runStream c4Req 0 [] (StreamEnd.errored "boom") =
        .rejected "boom"
          { initStreamState with actions := initStreamState.actions ++
              [.write ("data: " ++ jsonStringify ev ++ "\n\n"),
               .write "data: [DONE]\n\n", .endResponse] } ∧
      fakeEventContent c4Req.inboundApi ev =
        some (.str ("```\n[mid-stream-error: " ++ "boom" ++ "]\n```\n")) :=
  (C7_error_termination c4Req 0 [] "boom" initStreamState rfl (Or.inl rfl)).1

/-- C7 counterexample: a stream that terminates with a normal upstream
`end` (here: an empty stream) is ended without any `data: [DONE]` line
being written by the proxy — the only response action is ending the
response — contradicting the claim that *every* stream termination writes
`data: [DONE]` before the response is ended. -/
theorem C7_normal_end_no_done_counterexample :
    runStream c4Req 0 [] StreamEnd.normal =
      .resolved (.openaiBody oaiEmptyResponse)
        { fullChunks := [], chunkBuffer := [], messageBuffer := "",
          lastPosition := 0, actions := [.endResponse] } := rfl

/-- C8: `handleInternalError` classifies a `ZodError` as 400
`proxy_validation_error` (carrying the `issues` array), an error named
`ForbiddenError` as 403 `organization_account_disabled`, a
`QuotaExceededError` as 429 `proxy_quota_exceeded` (carrying the quota
info), and every other error as 500 `proxy_internal_error` (shown for a
response whose headers are not yet sent, where the status is actually
set). -/
theorem C8_error_classifier (now : Int) (req : ReqInfo) (res : ResState)
    (hh : res.headersSent = false) (hct : res.contentTypeSse = false)
    (hdbg : req.debug = none) :
    (∀ (issues : Json) (message stack : String), ∃ payload,
      handleInternalError now req res (.zodError issues message stack) =
        .ok { res with actions := res.actions ++ [.statusJson 400 payload] } ∧
      payloadErrorField payload "type" = some (.str "proxy_validation_error") ∧
      payloadErrorField payload "issues" = some issues) ∧
    (∀ (message : String), ∃ payload,
      handleInternalError now req res (.forbiddenError message) =
        .ok { res with actions := res.actions ++ [.statusJson 403 payload] } ∧
      payloadErrorField payload "type" = some (.str "organization_account_disabled")) ∧
    (∀ (message : String) (qinfo : Json) (stack : String), ∃ payload,
      handleInternalError now req res (.quotaExceededError message qinfo stack) =
        .ok { res with actions := res.actions ++ [.statusJson 429 payload] } ∧
      payloadErrorField payload "type" = some (.str "proxy_quota_exceeded") ∧
      payloadErrorField payload "info" = some qinfo) ∧
    (∀ (message stack : String), ∃ payload,
      handleInternalError now req res (.otherError message stack) =
        .ok { res with actions := res.actions ++ [.statusJson 500 payload] } ∧
      payloadErrorField payload "type" = some (.str "proxy_internal_error")) := by
  obtain ⟨rid, rapi, rin, rks, rbm, rdbg⟩ := req
  obtain ⟨hsent, ct, acts⟩ := res
  have h1 : hsent = false := hh
  have h2 : ct = false := hct
  have h3 : rdbg = none := hdbg
  subst h1
  subst h2
  subst h3
  refine ⟨?_, ?_, ?_, ?_⟩
  · intro issues message stack
    exact ⟨_, rfl, rfl, rfl⟩
  · intro message
    exact ⟨_, rfl, rfl⟩
  · intro message qinfo stack
    exact ⟨_, rfl, rfl, rfl⟩
  · intro message stack
    exact ⟨_, rfl, rfl⟩

theorem C8_error_classifier_witness :
    (∃ payload,
      handleInternalError 0 c4Req freshRes (.zodError .null "m" "s") =
        .ok { freshRes with actions := freshRes.actions ++ [.statusJson 400 payload] } ∧
      payloadErrorField payload "type" = some (.str "proxy_validation_error") ∧
      payloadErrorField payload "issues" = some .null) ∧
    (∃ payload,
      handleInternalError 0 c4Req freshRes (.forbiddenError "m") =
        .ok { freshRes with actions := freshRes.actions ++ [.statusJson 403 payload] } ∧
      payloadErrorField payload "type" = some (.str "organization_account_disabled")) ∧
    (∃ payload,
      handleInternalError 0 c4Req freshRes (.quotaExceededError "m" .null "s") =
        .ok { freshRes with actions := freshRes.actions ++ [.statusJson 429 payload] } ∧
      payloadErrorField payload "type" = some (.str "proxy_quota_exceeded") ∧
      payloadErrorField payload "info" = some .null) ∧
    (∃ payload,
      handleInternalError 0 c4Req freshRes (.otherError "m" "s") =
        .ok { freshRes with actions := freshRes.actions ++ [.statusJson 500 payload] } ∧
      payloadErrorField payload "type" = some (.str "proxy_internal_error")) :=
  have h := C8_error_classifier 0 c4Req freshRes rfl rfl rfl
  ⟨h.1 .null "m" "s", h.2.1 "m", h.2.2.1 "m" .null "s", h.2.2.2 "m" "s"⟩

/-- C3: for a completion request by a known user, `applyQuotaLimits`
throws `QuotaExceededError` (with the user's limits, counts, and the
requested token total) exactly when `hasAvailableQuota` is false for
`(promptTokens ?? 0) + (outputTokens ?? 0)`; `hasAvailableQuota` is
always true for `special` users and when the family's limit entry is
absent or 0, and otherwise holds exactly when consumed + requested is
strictly below the limit; a thrown `QuotaExceededError` surfaces as a
429 `proxy_quota_exceeded` response carrying the quota info. -/
theorem C3_quota_gate (store : UserStore) (method path bodyModel : String)
    (user : User) (promptTokens outputTokens : Option Int)
    (hcompl : isCompletionRequest method path = true)
    (hknown : dictGet store.users user.token = some user) :
    (applyQuotaLimits store method path (some user) bodyModel promptTokens outputTokens
        = .error { quota := user.tokenLimits, used := user.tokenCounts,
                   requested := promptTokens.getD 0 + outputTokens.getD 0 } ↔
      hasAvailableQuota store user.token bodyModel
        (promptTokens.getD 0 + outputTokens.getD 0) = false) ∧
    (user.type = UserType.special →
      ∀ requested : Int, hasAvailableQuota store user.token bodyModel requested = true) ∧
    (∀ requested : Int,
      (dictGet user.tokenLimits (getModelFamilyForQuotaUsage bodyModel) = none ∨
       dictGet user.tokenLimits (getModelFamilyForQuotaUsage bodyModel) = some 0) →
      hasAvailableQuota store user.token bodyModel requested = true) ∧
    (∀ (requested limit : Int), user.type ≠ UserType.special →
      dictGet user.tokenLimits (getModelFamilyForQuotaUsage bodyModel) = some limit →
      limit ≠ 0 →
      (hasAvailableQuota store user.token bodyModel requested = true ↔
        (dictGet user.tokenCounts (getModelFamilyForQuotaUsage bodyModel)).getD 0
          + requested < limit)) ∧
    (∀ (now : Int) (req : ReqInfo) (res : ResState) (msg stack : String) (info : QuotaInfo),
      res.headersSent = false → res.contentTypeSse = false → req.debug = none →
      ∃ payload,
        handleInternalError now req res
            (.quotaExceededError msg (quotaInfoToJson info) stack) =
          .ok { res with actions := res.actions ++ [.statusJson 429 payload] } ∧
        payloadErrorField payload "type" = some (.str "proxy_quota_exceeded") ∧
        payloadErrorField payload "info" = some (quotaInfoToJson info)) := by
  refine ⟨?_, ?_, ?_, ?_, ?_⟩
  · cases hq : hasAvailableQuota store user.token bodyModel
        (promptTokens.getD 0 + outputTokens.getD 0) with
    | true => simp [applyQuotaLimits, hcompl, hq]
    | false => simp [applyQuotaLimits, hcompl, hq]
  · intro hsp requested
    simp [hasAvailableQuota, hknown, hsp]
  · intro requested hlim
    by_cases hsp : user.type = UserType.special
    · simp [hasAvailableQuota, hknown, hsp]
    · rcases hlim with hl | hl <;> simp [hasAvailableQuota, hknown, hsp, hl]
  · intro requested limit hsp hlim hnz
    simp [hasAvailableQuota, hknown, hsp, hlim, hnz]
  · intro now req res msg stack info hh hct hdbg
    obtain ⟨rid, rapi, rin, rks, rbm, rdbg⟩ := req
    obtain ⟨hsent, ct, acts⟩ := res
    have h1 : hsent = false := hh
    have h2 : ct = false := hct
    have h3 : rdbg = none := hdbg
    subst h1
    subst h2
    subst h3
    exact ⟨_, rfl, rfl, rfl⟩

theorem C3_quota_gate_witness :
    (applyQuotaLimits c3Store "POST" "/v1/chat/completions" (some c3User)
        "gpt-3.5-turbo" (some 10) none =
      .error { quota := c3User.tokenLimits, used := c3User.tokenCounts,
               requested := (some (10 : Int)).getD 0 + (none : Option Int).getD 0 } ↔
      hasAvailableQuota c3Store c3User.token "gpt-3.5-turbo"
        ((some (10 : Int)).getD 0 + (none : Option Int).getD 0) = false) ∧
    hasAvailableQuota c5SpecialStore c5Special.token "gpt-4" 10 = true ∧
    hasAvailableQuota c3Store c3User.token "claude-v1" 10 = true ∧
    (hasAvailableQuota c3Store c3User.token "gpt-3.5-turbo" 10 = true ↔
      (dictGet c3User.tokenCounts (getModelFamilyForQuotaUsage "gpt-3.5-turbo")).getD 0
        + 10 < 100) ∧
    (∃ payload,
      handleInternalError 0 c4Req freshRes
          (.quotaExceededError "m" (quotaInfoToJson ⟨[], [], 0⟩) "s") =
        .ok { freshRes with actions := freshRes.actions ++ [.statusJson 429 payload] } ∧
      payloadErrorField payload "type" = some (.str "proxy_quota_exceeded") ∧
      payloadErrorField payload "info" = some (quotaInfoToJson ⟨[], [], 0⟩)) :=
  ⟨(C3_quota_gate c3Store "POST" "/v1/chat/completions" "gpt-3.5-turbo" c3User
      (some 10) none (by decide) (by decide)).1,
   (C3_quota_gate c5SpecialStore "POST" "/v1/chat/completions" "gpt-4" c5Special
      none none (by decide) (by decide)).2.1 rfl 10,
   (C3_quota_gate c3Store "POST" "/v1/chat/completions" "claude-v1" c3User
      none none (by decide) (by decide)).2.2.1 10 (Or.inl (by decide)),
   (C3_quota_gate c3Store "POST" "/v1/chat/completions" "gpt-3.5-turbo" c3User
      none none (by decide) (by decide)).2.2.2.1 10 100 (by decide) (by decide)
      (by decide),
   (C3_quota_gate c3Store "POST" "/v1/chat/completions" "gpt-3.5-turbo" c3User
      none none (by decide) (by decide)).2.2.2.2 0 c4Req freshRes "m" "s"
      ⟨[], [], 0⟩ rfl rfl rfl⟩
